import Mathlib

/-!
Shallow embedding of the core of `src/Main.cpp` (adcr2025_visWeather):
a geo-referenced scalar-field renderer.  C++ `double` grid values and
coordinates are modelled as `ℚ` (all operations used by the embedded
functions are exact comparisons and field arithmetic); the `±infinity`
sentinels that the source uses as initial accumulator values are
modelled by `Option ℚ` with `none` standing for the never-overwritten
sentinel.  The IEEE special values (`Inf`/`NaN`) that arise in the
colormap normalization when the display range is degenerate are
modelled by a dedicated type `FP` wrapping `ℚ` with `inf`, `ninf`
and `nan` constructors and IEEE-754 rules for the operations the
source performs.
-/

namespace VisWeather

/-- `Grid<double>` (`pmsl[y][x]`): a list of rows of rational cell values. -/
structure Grid where
  cells : List (List ℚ)
deriving DecidableEq

/-- Row-major flattening of a grid: the cell traversal order of the
`for y { for x { ... } }` loops in `GetMinMax` / `CreateColormapImage`. -/
def Grid.cellList (g : Grid) : List ℚ :=
  g.cells.flatten

/-- `weatherData` from Main.cpp: PMSL grid plus latitude/longitude axes. -/
structure weatherData where
  pmsl : Grid
  lats : List ℚ
  lons : List ℚ

/-! ### GetMinMax (Main.cpp lines 115-138)

The C++ accumulators are `mn = +inf` guarded by the flag `hasMin`, and
`mx = -inf`; `none` models the untouched sentinel in both cases (the
`+inf` initial value of `mn` can never be returned: the first qualifying
cell overwrites it because `!hasMin` holds, and if no cell qualifies the
final fallback replaces it by `100`). -/

/-- One loop step for the filtered minimum:
`if (v >= 100.0) { if (!hasMin || v < mn) mn = v; hasMin = true; }`. -/
def stepMin (mn : Option ℚ) (v : ℚ) : Option ℚ :=
  if 100 ≤ v then
    match mn with
    | none => some v
    | some m => if v < m then some v else some m
  else mn

/-- One loop step for the unfiltered maximum: `if (v > mx) mx = v;`
(`v > -inf` always holds, so the sentinel is always overwritten). -/
def stepMax (mx : Option ℚ) (v : ℚ) : Option ℚ :=
  match mx with
  | none => some v
  | some m => if m < v then some v else some m

/-- One iteration of the inner loop body of `GetMinMax`, acting on the
pair of accumulators `(mn, mx)`. -/
def gmmStep (s : Option ℚ × Option ℚ) (v : ℚ) : Option ℚ × Option ℚ :=
  (stepMin s.1 v, stepMax s.2 v)

/-- `GetMinMax(data)`: row-major scan of all cells, followed by the
`if (!hasMin) mn = 100.0;` fallback.  Returns `(mn, mx)`; `mx = none`
models the `-inf` sentinel returned for an empty grid. -/
def GetMinMax (g : Grid) : ℚ × Option ℚ :=
  let s := g.cells.foldl (fun acc row => row.foldl gmmStep acc) (none, none)
  (s.1.getD 100, s.2)

/-! ### Helper accumulators

`minAcc`/`maxAcc` describe one `Min`/`Max` update against an `Option`-modelled
infinite sentinel; they are shared by the `GetMinMax` and `GetBounds` proofs. -/

/-- `Min(acc, v)` where `acc = none` models the `+inf` sentinel. -/
def minAcc (acc : Option ℚ) (v : ℚ) : Option ℚ :=
  match acc with
  | none => some v
  | some m => some (min m v)

/-- `Max(acc, v)` where `acc = none` models the `-inf` sentinel. -/
def maxAcc (acc : Option ℚ) (v : ℚ) : Option ℚ :=
  match acc with
  | none => some v
  | some m => some (max m v)

lemma stepMax_eq_maxAcc (mx : Option ℚ) (v : ℚ) : stepMax mx v = maxAcc mx v := by
  cases mx with
  | none => rfl
  | some m =>
    simp only [stepMax, maxAcc]
    rcases lt_or_le m v with h | h
    · simp [h, max_eq_right h.le]
    · simp [not_lt.2 h, max_eq_left h]

lemma stepMin_eq_minAcc {v : ℚ} (mn : Option ℚ) (h : 100 ≤ v) :
    stepMin mn v = minAcc mn v := by
  cases mn with
  | none => simp [stepMin, minAcc, h]
  | some m =>
    simp only [stepMin, minAcc, if_pos h]
    rcases lt_or_le v m with h' | h'
    · simp [h', min_eq_right h'.le]
    · simp [not_lt.2 h', min_eq_left h']

lemma stepMin_eq_self {v : ℚ} (mn : Option ℚ) (h : ¬ 100 ≤ v) :
    stepMin mn v = mn := by
  simp [stepMin, h]

/-- The filtered-minimum fold only sees the cells `>= 100`. -/
lemma foldl_stepMin_eq_filter (l : List ℚ) (acc : Option ℚ) :
    l.foldl stepMin acc = (l.filter (fun v => decide (100 ≤ v))).foldl minAcc acc := by
  induction l generalizing acc with
  | nil => rfl
  | cons v l ih =>
    by_cases h : (100:ℚ) ≤ v
    · simp [List.filter_cons, h, ih, stepMin_eq_minAcc _ h]
    · simp [List.filter_cons, h, ih, stepMin_eq_self _ h]

lemma foldl_stepMax_eq_maxAcc (l : List ℚ) (acc : Option ℚ) :
    l.foldl stepMax acc = l.foldl maxAcc acc := by
  induction l generalizing acc with
  | nil => rfl
  | cons v l ih => simp [ih, stepMax_eq_maxAcc]

/-- The paired fold of `gmmStep` is the pair of the component folds. -/
lemma foldl_gmmStep (l : List ℚ) (s : Option ℚ × Option ℚ) :
    l.foldl gmmStep s = (l.foldl stepMin s.1, l.foldl stepMax s.2) := by
  induction l generalizing s with
  | nil => rfl
  | cons v l ih => simp [gmmStep, ih]

/-- The nested row/column loops of `GetMinMax` traverse exactly the
row-major cell list. -/
lemma GetMinMax_eq_flat (g : Grid) :
    GetMinMax g
      = ((g.cellList.foldl stepMin none).getD 100, g.cellList.foldl stepMax none) := by
  unfold GetMinMax Grid.cellList
  rw [← List.foldl_flatten, foldl_gmmStep]

/-! Facts about `List.foldl min` / `List.foldl max`. -/

lemma foldl_min_le_init (l : List ℚ) (a : ℚ) : l.foldl min a ≤ a := by
  induction l generalizing a with
  | nil => exact le_refl a
  | cons v l ih => exact le_trans (ih (min a v)) (min_le_left a v)

lemma foldl_min_le_of_mem (l : List ℚ) (a : ℚ) : ∀ v ∈ l, l.foldl min a ≤ v := by
  induction l generalizing a with
  | nil => intro v hv; cases hv
  | cons u l ih =>
    intro v hv
    rcases List.mem_cons.1 hv with h | h
    · subst h
      exact le_trans (foldl_min_le_init l (min a v)) (min_le_right a v)
    · exact ih (min a u) v h

lemma foldl_min_mem (l : List ℚ) (a : ℚ) : l.foldl min a = a ∨ l.foldl min a ∈ l := by
  induction l generalizing a with
  | nil => exact Or.inl rfl
  | cons v l ih =>
    rcases ih (min a v) with h | h
    · rcases min_choice a v with h' | h'
      · exact Or.inl (by rw [List.foldl_cons, h, h'])
      · exact Or.inr (by rw [List.foldl_cons, h, h']; exact List.mem_cons_self v l)
    · exact Or.inr (List.mem_cons_of_mem v h)

lemma foldl_max_init_le (l : List ℚ) (a : ℚ) : a ≤ l.foldl max a := by
  induction l generalizing a with
  | nil => exact le_refl a
  | cons v l ih => exact le_trans (le_max_left a v) (ih (max a v))

lemma foldl_max_ge_of_mem (l : List ℚ) (a : ℚ) : ∀ v ∈ l, v ≤ l.foldl max a := by
  induction l generalizing a with
  | nil => intro v hv; cases hv
  | cons u l ih =>
    intro v hv
    rcases List.mem_cons.1 hv with h | h
    · subst h
      exact le_trans (le_max_right a v) (foldl_max_init_le l (max a v))
    · exact ih (max a u) v h

lemma foldl_max_mem (l : List ℚ) (a : ℚ) : l.foldl max a = a ∨ l.foldl max a ∈ l := by
  induction l generalizing a with
  | nil => exact Or.inl rfl
  | cons v l ih =>
    rcases ih (max a v) with h | h
    · rcases max_choice a v with h' | h'
      · exact Or.inl (by rw [List.foldl_cons, h, h'])
      · exact Or.inr (by rw [List.foldl_cons, h, h']; exact List.mem_cons_self v l)
    · exact Or.inr (List.mem_cons_of_mem v h)

lemma foldl_minAcc_some (l : List ℚ) (a : ℚ) :
    l.foldl minAcc (some a) = some (l.foldl min a) := by
  induction l generalizing a with
  | nil => rfl
  | cons v l ih => simp [minAcc, ih]

lemma foldl_maxAcc_some (l : List ℚ) (a : ℚ) :
    l.foldl maxAcc (some a) = some (l.foldl max a) := by
  induction l generalizing a with
  | nil => rfl
  | cons v l ih => simp [maxAcc, ih]

/-- The min fold over a non-empty list yields its least element. -/
lemma foldl_minAcc_least {l : List ℚ} (hne : l ≠ []) :
    ∃ m, l.foldl minAcc none = some m ∧ m ∈ l ∧ ∀ v ∈ l, m ≤ v := by
  cases l with
  | nil => exact absurd rfl hne
  | cons v l =>
    refine ⟨l.foldl min v, by simp [minAcc, foldl_minAcc_some], ?_, ?_⟩
    · rcases foldl_min_mem l v with h | h
      · rw [h]; exact List.mem_cons_self v l
      · exact List.mem_cons_of_mem v h
    · intro u hu
      rcases List.mem_cons.1 hu with h | h
      · rw [h]; exact foldl_min_le_init l v
      · exact foldl_min_le_of_mem l v u h

/-- The max fold over a non-empty list yields its greatest element. -/
lemma foldl_maxAcc_greatest {l : List ℚ} (hne : l ≠ []) :
    ∃ M, l.foldl maxAcc none = some M ∧ M ∈ l ∧ ∀ v ∈ l, v ≤ M := by
  cases l with
  | nil => exact absurd rfl hne
  | cons v l =>
    refine ⟨l.foldl max v, by simp [maxAcc, foldl_maxAcc_some], ?_, ?_⟩
    · rcases foldl_max_mem l v with h | h
      · rw [h]; exact List.mem_cons_self v l
      · exact List.mem_cons_of_mem v h
    · intro u hu
      rcases List.mem_cons.1 hu with h | h
      · rw [h]; exact foldl_max_init_le l v
      · exact foldl_max_ge_of_mem l v u h

/-- The cells the filtered-minimum accumulator of `GetMinMax` ranges over. -/
def qualifying (l : List ℚ) : List ℚ :=
  l.filter (fun v => decide (100 ≤ v))

/-- Characterization of the low accumulator when some cell qualifies. -/
lemma low_least {l : List ℚ} (hex : ∃ v ∈ l, (100:ℚ) ≤ v) :
    ∃ m, l.foldl stepMin none = some m
      ∧ m ∈ qualifying l ∧ ∀ v ∈ qualifying l, m ≤ v := by
  have hne : qualifying l ≠ [] := by
    rcases hex with ⟨v, hv, h100⟩
    intro hnil
    have : v ∈ qualifying l := by
      simp [qualifying, List.mem_filter, hv, h100]
    rw [hnil] at this
    cases this
  rcases foldl_minAcc_least hne with ⟨m, hfold, hmem, hle⟩
  exact ⟨m, by rw [foldl_stepMin_eq_filter]; exact hfold, hmem, hle⟩

/-- The low accumulator stays at its sentinel when no cell qualifies. -/
lemma low_sentinel {l : List ℚ} (hall : ∀ v ∈ l, v < 100) :
    l.foldl stepMin none = none := by
  have hnil : qualifying l = [] := by
    refine List.filter_eq_nil_iff.2 ?_
    intro v hv
    simpa using not_le.2 (hall v hv)
  rw [foldl_stepMin_eq_filter]
  rw [qualifying] at hnil
  rw [hnil]
  rfl

/-- Characterization of the high accumulator on a non-empty list. -/
lemma high_greatest {l : List ℚ} (hne : l ≠ []) :
    ∃ M, l.foldl stepMax none = some M ∧ M ∈ l ∧ ∀ v ∈ l, v ≤ M := by
  rcases foldl_maxAcc_greatest hne with ⟨M, hfold, hmem, hge⟩
  exact ⟨M, by rw [foldl_stepMax_eq_maxAcc]; exact hfold, hmem, hge⟩

/-- Claim C1: for every grid containing at least one cell `>= 100`,
`GetMinMax` returns as `low` the least element of exactly the cells whose
value is `>= 100`, as `high` the greatest element over all cells, and the
result only depends on the multiset of cells, not on their scan order. -/
theorem getMinMax_filtered_min_unfiltered_max (g : Grid)
    (hex : ∃ v ∈ g.cellList, (100:ℚ) ≤ v) :
    ((GetMinMax g).1 ∈ qualifying g.cellList
      ∧ ∀ v ∈ qualifying g.cellList, (GetMinMax g).1 ≤ v)
    ∧ (∃ M, (GetMinMax g).2 = some M ∧ M ∈ g.cellList ∧ ∀ v ∈ g.cellList, v ≤ M)
    ∧ (∀ g' : Grid, g'.cellList.Perm g.cellList → GetMinMax g' = GetMinMax g) := by
  have hne : g.cellList ≠ [] := by
    rcases hex with ⟨v, hv, -⟩
    exact List.ne_nil_of_mem hv
  rcases low_least hex with ⟨m, hm, hmmem, hmle⟩
  rcases high_greatest hne with ⟨M, hM, hMmem, hMge⟩
  have hfst : (GetMinMax g).1 = m := by
    rw [GetMinMax_eq_flat, hm]; rfl
  have hsnd : (GetMinMax g).2 = some M := by
    rw [GetMinMax_eq_flat]; exact hM
  refine ⟨⟨hfst ▸ hmmem, fun v hv => hfst ▸ hmle v hv⟩, ⟨M, hsnd, hMmem, hMge⟩, ?_⟩
  intro g' hperm
  have hex' : ∃ v ∈ g'.cellList, (100:ℚ) ≤ v := by
    rcases hex with ⟨v, hv, h100⟩
    exact ⟨v, hperm.mem_iff.2 hv, h100⟩
  have hne' : g'.cellList ≠ [] := by
    rcases hex' with ⟨v, hv, -⟩
    exact List.ne_nil_of_mem hv
  rcases low_least hex' with ⟨m', hm', hmmem', hmle'⟩
  rcases high_greatest hne' with ⟨M', hM', hMmem', hMge'⟩
  have hqperm : (qualifying g'.cellList).Perm (qualifying g.cellList) :=
    hperm.filter _
  have hmeq : m' = m :=
    le_antisymm (hmle' m (hqperm.mem_iff.2 hmmem)) (hmle m' (hqperm.mem_iff.1 hmmem'))
  have hMeq : M' = M :=
    le_antisymm (hMge M' (hperm.mem_iff.1 hMmem')) (hMge' M (hperm.mem_iff.2 hMmem))
  rw [GetMinMax_eq_flat, GetMinMax_eq_flat, hm, hm', hM, hM', hmeq, hMeq]

/-- Witness for C1 on the grid `[[150, 50], [250, 120]]`. -/
theorem getMinMax_filtered_min_unfiltered_max_witness :
    ((GetMinMax ⟨[[150, 50], [250, 120]]⟩).1 ∈ qualifying (Grid.cellList ⟨[[150, 50], [250, 120]]⟩)
      ∧ ∀ v ∈ qualifying (Grid.cellList ⟨[[150, 50], [250, 120]]⟩),
          (GetMinMax ⟨[[150, 50], [250, 120]]⟩).1 ≤ v)
    ∧ (∃ M, (GetMinMax ⟨[[150, 50], [250, 120]]⟩).2 = some M
        ∧ M ∈ Grid.cellList ⟨[[150, 50], [250, 120]]⟩
        ∧ ∀ v ∈ Grid.cellList ⟨[[150, 50], [250, 120]]⟩, v ≤ M)
    ∧ (∀ g' : Grid, g'.cellList.Perm (Grid.cellList ⟨[[150, 50], [250, 120]]⟩) →
        GetMinMax g' = GetMinMax ⟨[[150, 50], [250, 120]]⟩) :=
  getMinMax_filtered_min_unfiltered_max ⟨[[150, 50], [250, 120]]⟩
    ⟨150, by simp [Grid.cellList], by norm_num⟩

/-- Claim C7: on a non-empty grid all of whose cells are strictly below
100, `GetMinMax` returns the fallback constant `100` as `low`. -/
theorem getMinMax_low_fallback_100 (g : Grid) (hne : g.cellList ≠ [])
    (hall : ∀ v ∈ g.cellList, v < 100) :
    (GetMinMax g).1 = 100 := by
  rw [GetMinMax_eq_flat, low_sentinel hall]
  rfl

/-- Witness for C7 on the grid `[[50, 99]]`. -/
theorem getMinMax_low_fallback_100_witness :
    (GetMinMax ⟨[[50, 99]]⟩).1 = 100 :=
  getMinMax_low_fallback_100 ⟨[[50, 99]]⟩ (by simp [Grid.cellList])
    (by intro v hv; simp [Grid.cellList] at hv; rcases hv with h | h <;> rw [h] <;> norm_num)

/-- Claim C9: on every non-empty grid the `low` component returned by
`GetMinMax` is at least 100 (either the least qualifying cell, which is
`>= 100` by construction, or the fallback constant `100`). -/
theorem getMinMax_low_ge_100 (g : Grid) (hne : g.cellList ≠ []) :
    (100:ℚ) ≤ (GetMinMax g).1 := by
  by_cases hex : ∃ v ∈ g.cellList, (100:ℚ) ≤ v
  · rcases low_least hex with ⟨m, hm, hmmem, -⟩
    have : (GetMinMax g).1 = m := by rw [GetMinMax_eq_flat, hm]; rfl
    rw [this]
    have := List.mem_filter.1 hmmem
    simpa using this.2
  · push_neg at hex
    rw [getMinMax_low_fallback_100 g hne hex]

/-- Witness for C9 on the grid `[[50], [300]]`. -/
theorem getMinMax_low_ge_100_witness :
    (100:ℚ) ≤ (GetMinMax ⟨[[50], [300]]⟩).1 :=
  getMinMax_low_ge_100 ⟨[[50], [300]]⟩ (by simp [Grid.cellList])

/-- Claim C10: `GetMinMax` keeps the unfiltered maximum even when it lies
below 100, so on a non-empty grid whose cells are all strictly below 100
the returned pair has `high < low` (`high` = true maximum `< 100 = low`):
the `DisplayRange` ordering `high >= low` fails for such grids. -/
theorem getMinMax_high_lt_low_when_all_below_100 (g : Grid)
    (hne : g.cellList ≠ []) (hall : ∀ v ∈ g.cellList, v < 100) :
    ∃ M, (GetMinMax g).2 = some M ∧ M ∈ g.cellList ∧ (∀ v ∈ g.cellList, v ≤ M)
      ∧ M < (GetMinMax g).1 ∧ (GetMinMax g).1 = 100 := by
  rcases high_greatest hne with ⟨M, hM, hMmem, hMge⟩
  have hlow := getMinMax_low_fallback_100 g hne hall
  refine ⟨M, by rw [GetMinMax_eq_flat]; exact hM, hMmem, hMge, ?_, hlow⟩
  rw [hlow]
  exact hall M hMmem

/-- Witness for C10 on the grid `[[50, 99]]`: `high = 99 < 100 = low`. -/
theorem getMinMax_high_lt_low_when_all_below_100_witness :
    ∃ M, (GetMinMax ⟨[[50, 99]]⟩).2 = some M
      ∧ M ∈ Grid.cellList ⟨[[50, 99]]⟩
      ∧ (∀ v ∈ Grid.cellList ⟨[[50, 99]]⟩, v ≤ M)
      ∧ M < (GetMinMax ⟨[[50, 99]]⟩).1 ∧ (GetMinMax ⟨[[50, 99]]⟩).1 = 100 :=
  getMinMax_high_lt_low_when_all_below_100 ⟨[[50, 99]]⟩ (by simp [Grid.cellList])
    (by intro v hv; simp [Grid.cellList] at hv; rcases hv with h | h <;> rw [h] <;> norm_num)

/-- Counterexample to claim C4: on the empty grid `GetMinMax` does not
fail at all — the source contains no emptiness check and no error path —
it returns the numeric fallback `low = 100` together with the untouched
`-inf` sentinel (`none`) as `high`. -/
theorem getMinMax_empty_counterexample :
    GetMinMax ⟨[]⟩ = (100, none) := rfl

/-- Claim C4 as amended: applied to a grid with no cells, `GetMinMax`
returns `low = 100` (the fallback constant) and `high` equal to the
`-infinity` sentinel, raising no error. -/
theorem getMinMax_empty_returns_fallback (g : Grid) (h : g.cellList = []) :
    GetMinMax g = (100, none) := by
  rw [GetMinMax_eq_flat, h]
  rfl

/-- Witness for the amended C4 on the grid with two empty rows. -/
theorem getMinMax_empty_returns_fallback_witness :
    GetMinMax ⟨[[], []]⟩ = (100, none) :=
  getMinMax_empty_returns_fallback ⟨[[], []]⟩ (by simp [Grid.cellList])

/-! ### GetBounds (Main.cpp lines 93-112)

`GeoBounds` is initialized with `±Math::Inf` sentinels and each axis is
folded through `Min`/`Max`.  `none` models a sentinel that was never
overwritten (which the source returns unchanged when an axis is empty).
The single loop per axis updates min and max together; the two
independent accumulators are modelled as two folds of the shared
`minAcc`/`maxAcc` step functions. -/

/-- `GeoBounds` with `none` standing for the `±Math::Inf` sentinels. -/
structure GeoBounds where
  lonMin : Option ℚ
  lonMax : Option ℚ
  latMin : Option ℚ
  latMax : Option ℚ
deriving DecidableEq

/-- `GetBounds(field)`: per-axis min/max folds from the infinite sentinels. -/
def GetBounds (field : weatherData) : GeoBounds :=
  { lonMin := field.lons.foldl minAcc none
    lonMax := field.lons.foldl maxAcc none
    latMin := field.lats.foldl minAcc none
    latMax := field.lats.foldl maxAcc none }

/-- Counterexample to claim C8: with an empty longitude axis (and a
non-empty latitude axis) `GetBounds` does not fail — the source has no
emptiness check and no error path — it returns a `GeoBounds` whose
longitude fields still hold the `±Inf` sentinels. -/
theorem getBounds_empty_counterexample :
    GetBounds ⟨⟨[]⟩, [0], []⟩
      = { lonMin := none, lonMax := none, latMin := some 0, latMax := some 0 } := rfl

/-- Claim C8 as amended: on an empty longitude (resp. latitude) axis,
`GetBounds` returns the untouched `+Inf`/`-Inf` sentinels for that
axis's min/max instead of raising any error. -/
theorem getBounds_empty_returns_sentinels (field : weatherData) :
    (field.lons = [] → (GetBounds field).lonMin = none ∧ (GetBounds field).lonMax = none)
    ∧ (field.lats = [] → (GetBounds field).latMin = none ∧ (GetBounds field).latMax = none) := by
  constructor
  · intro h
    simp [GetBounds, h]
  · intro h
    simp [GetBounds, h]

/-- Witness for the amended C8 on a field with both axes empty. -/
theorem getBounds_empty_returns_sentinels_witness :
    ((GetBounds ⟨⟨[]⟩, [], []⟩).lonMin = none ∧ (GetBounds ⟨⟨[]⟩, [], []⟩).lonMax = none)
    ∧ ((GetBounds ⟨⟨[]⟩, [], []⟩).latMin = none ∧ (GetBounds ⟨⟨[]⟩, [], []⟩).latMax = none) :=
  ⟨(getBounds_empty_returns_sentinels ⟨⟨[]⟩, [], []⟩).1 rfl,
   (getBounds_empty_returns_sentinels ⟨⟨[]⟩, [], []⟩).2 rfl⟩

/-! ### IEEE-754 model for the colormap normalization

`CreateColormapImage` (Main.cpp lines 65-83) computes
`invRange = 1.0 / (vmax - vmin)` and `t = Clamp((v - vmin) * invRange, 0, 1)`
in `double` arithmetic.  When `vmax == vmin` this divides by zero, so the
relevant behavior lives in the IEEE special values: `FP` models a double
as an exact rational payload plus `+inf`, `-inf` and `NaN`, with the
IEEE-754 rules for the subtraction, multiplication, division and ordered
comparison that this function performs (rounding never occurs in the
claims' inputs, so the rational payload is exact; `ℚ`'s `0` plays IEEE
`+0`). -/

inductive FP where
  | fin (q : ℚ)
  | inf
  | ninf
  | nan
deriving DecidableEq

namespace FP

/-- IEEE subtraction restricted to the values `CreateColormapImage` uses. -/
def sub : FP → FP → FP
  | nan, _ => nan
  | _, nan => nan
  | fin a, fin b => fin (a - b)
  | fin _, inf => ninf
  | fin _, ninf => inf
  | inf, fin _ => inf
  | inf, inf => nan
  | inf, ninf => inf
  | ninf, fin _ => ninf
  | ninf, inf => ninf
  | ninf, ninf => nan

/-- IEEE multiplication: `0 * ±inf = NaN`, signs otherwise. -/
def mul : FP → FP → FP
  | nan, _ => nan
  | _, nan => nan
  | fin a, fin b => fin (a * b)
  | fin a, inf => if a = 0 then nan else if 0 < a then inf else ninf
  | inf, fin a => if a = 0 then nan else if 0 < a then inf else ninf
  | fin a, ninf => if a = 0 then nan else if 0 < a then ninf else inf
  | ninf, fin a => if a = 0 then nan else if 0 < a then ninf else inf
  | inf, inf => inf
  | inf, ninf => ninf
  | ninf, inf => ninf
  | ninf, ninf => inf

/-- IEEE division: a nonzero finite numerator over `+0` gives `±inf`. -/
def div : FP → FP → FP
  | nan, _ => nan
  | _, nan => nan
  | fin a, fin b =>
      if b = 0 then (if a = 0 then nan else if 0 < a then inf else ninf)
      else fin (a / b)
  | fin _, inf => fin 0
  | fin _, ninf => fin 0
  | inf, fin b => if 0 ≤ b then inf else ninf
  | ninf, fin b => if 0 ≤ b then ninf else inf
  | inf, inf => nan
  | inf, ninf => nan
  | ninf, inf => nan
  | ninf, ninf => nan

/-- IEEE ordered less-than: every comparison with `NaN` is false. -/
def lt : FP → FP → Bool
  | nan, _ => false
  | _, nan => false
  | fin a, fin b => decide (a < b)
  | fin _, inf => true
  | fin _, ninf => false
  | inf, _ => false
  | ninf, ninf => false
  | ninf, _ => true

end FP

/-- `Clamp(x, lo, hi)` as the source's Siv3D helper evaluates it on
doubles: `if (x < lo) return lo; if (hi < x) return hi; return x;`
(comparisons with `NaN` are false, so `NaN` passes through). -/
def clampFP (x lo hi : FP) : FP :=
  if FP.lt x lo then lo else if FP.lt hi x then hi else x

/-- The per-cell normalization of `CreateColormapImage` in double
arithmetic (Main.cpp lines 68, 77, 78): `invRange = 1.0 / (vmax - vmin)`;
`t = Clamp((v - vmin) * invRange, 0.0, 1.0)`. -/
def normClamped (v vmin vmax : FP) : FP :=
  let invRange := FP.div (FP.fin 1) (FP.sub vmax vmin)
  clampFP (FP.mul (FP.sub v vmin) invRange) (FP.fin 0) (FP.fin 1)

/-- `CreateColormapImage(data, vmin, vmax, cmapType)`: positionwise image
synthesis `img[y][x] = Colormap01F(t, cmapType)`.  `Colormap01F` is an
external Siv3D color ramp, modelled as an arbitrary function `cmap` from
the (possibly non-finite) normalized value to an abstract color type. -/
def CreateColormapImage {C : Type} (data : Grid) (vmin vmax : ℚ) (cmap : FP → C) :
    List (List C) :=
  data.cells.map (fun row =>
    row.map (fun v => cmap (normClamped (FP.fin v) (FP.fin vmin) (FP.fin vmax))))

/-- On a non-degenerate range the normalization stays finite and a value
below the floor clamps to `t = 0`. -/
lemma normClamped_below {v vmin vmax : ℚ} (hrange : vmin < vmax) (hv : v < vmin) :
    normClamped (FP.fin v) (FP.fin vmin) (FP.fin vmax) = FP.fin 0 := by
  have hd : vmax - vmin ≠ 0 := sub_ne_zero.2 (ne_of_gt hrange)
  have hdpos : (0:ℚ) < vmax - vmin := sub_pos.2 hrange
  have ht : (v - vmin) * (1 / (vmax - vmin)) < 0 :=
    mul_neg_of_neg_of_pos (sub_neg.2 hv) (by positivity)
  simp only [normClamped, FP.sub, FP.div, if_neg hd, FP.mul]
  rw [one_div] at ht ⊢
  simp [clampFP, FP.lt, ht]

/-- On a non-degenerate range a value above the ceiling clamps to `t = 1`. -/
lemma normClamped_above {v vmin vmax : ℚ} (hrange : vmin < vmax) (hv : vmax < v) :
    normClamped (FP.fin v) (FP.fin vmin) (FP.fin vmax) = FP.fin 1 := by
  have hd : vmax - vmin ≠ 0 := sub_ne_zero.2 (ne_of_gt hrange)
  have hdpos : (0:ℚ) < vmax - vmin := sub_pos.2 hrange
  have ht : 1 < (v - vmin) * (1 / (vmax - vmin)) := by
    rw [mul_one_div]
    exact (one_lt_div hdpos).2 (by linarith)
  have ht0 : ¬ (v - vmin) * (1 / (vmax - vmin)) < 0 := by
    push_neg
    linarith
  simp only [normClamped, FP.sub, FP.div, if_neg hd, FP.mul]
  rw [one_div] at ht ht0 ⊢
  simp [clampFP, FP.lt, ht, ht0]

/-- Claim C6: with `range.high > range.low`, a cell strictly below the
low bound is assigned the colormap's color at `t = 0`, and a cell
strictly above the high bound the colormap's color at `t = 1` (the
normalized value is clamped to `[0, 1]` before the lookup). -/
theorem createColormapImage_clamp {C : Type} (g : Grid) (vmin vmax : ℚ) (cmap : FP → C)
    (hrange : vmin < vmax) (y x : ℕ) (v : ℚ)
    (hv : (g.cells.get? y).bind (fun row => row.get? x) = some v) :
    (v < vmin →
      ((CreateColormapImage g vmin vmax cmap).get? y).bind (fun row => row.get? x)
        = some (cmap (FP.fin 0)))
    ∧ (vmax < v →
      ((CreateColormapImage g vmin vmax cmap).get? y).bind (fun row => row.get? x)
        = some (cmap (FP.fin 1))) := by
  cases hrow : g.cells.get? y with
  | none => rw [hrow] at hv; cases hv
  | some row =>
    rw [hrow] at hv
    simp only [Option.bind] at hv
    have himg :
        (CreateColormapImage g vmin vmax cmap).get? y
          = some (row.map (fun v =>
              cmap (normClamped (FP.fin v) (FP.fin vmin) (FP.fin vmax)))) := by
      rw [CreateColormapImage, List.get?_map, hrow]
      rfl
    constructor
    · intro hlt
      rw [himg]
      simp only [Option.bind, List.get?_map, hv]
      simp [normClamped_below hrange hlt]
    · intro hgt
      rw [himg]
      simp only [Option.bind, List.get?_map, hv]
      simp [normClamped_above hrange hgt]

/-- Witness for C6: grid `[[0, 5]]`, range `(1, 2)`, identity colormap:
cell value `0 < 1` yields the `t = 0` color and cell value `5 > 2`
yields the `t = 1` color. -/
theorem createColormapImage_clamp_witness :
    (((0:ℚ) < 1 →
      ((CreateColormapImage ⟨[[0, 5]]⟩ 1 2 (fun t => t)).get? 0).bind (fun row => row.get? 0)
        = some (FP.fin 0))
    ∧ ((2:ℚ) < 0 →
      ((CreateColormapImage ⟨[[0, 5]]⟩ 1 2 (fun t => t)).get? 0).bind (fun row => row.get? 0)
        = some (FP.fin 1)))
    ∧ (((5:ℚ) < 1 →
      ((CreateColormapImage ⟨[[0, 5]]⟩ 1 2 (fun t => t)).get? 0).bind (fun row => row.get? 1)
        = some (FP.fin 0))
    ∧ ((2:ℚ) < 5 →
      ((CreateColormapImage ⟨[[0, 5]]⟩ 1 2 (fun t => t)).get? 0).bind (fun row => row.get? 1)
        = some (FP.fin 1))) :=
  ⟨createColormapImage_clamp ⟨[[0, 5]]⟩ 1 2 (fun t => t) (by norm_num) 0 0 0 rfl,
   createColormapImage_clamp ⟨[[0, 5]]⟩ 1 2 (fun t => t) (by norm_num) 0 1 5 rfl⟩

/-- Claim C3 evaluated at a failing input (supporting the `code_bug`
status): with a degenerate range `vmin = vmax = 1000`, the source's
normalization computes `invRange = 1/0 = +Inf` and `t = 0 * Inf = NaN`,
and `Clamp` passes `NaN` through, so `NaN` reaches the color lookup
(`cmap` applied to `NaN`, observed with the identity colormap). -/
theorem createColormapImage_nan_on_degenerate_range :
    normClamped (FP.fin 1000) (FP.fin 1000) (FP.fin 1000) = FP.nan
    ∧ CreateColormapImage ⟨[[1000]]⟩ 1000 1000 (fun t => t) = [[FP.nan]] := by
  have h : normClamped (FP.fin 1000) (FP.fin 1000) (FP.fin 1000) = FP.nan := by
    norm_num [normClamped, FP.sub, FP.div, FP.mul, clampFP, FP.lt]
  exact ⟨h, by simp [CreateColormapImage, h]⟩

/-! ### CoastlineOverlay (Main.cpp lines 141-202)

`RectF` models Siv3D's `RectF` (position `(x, y)` and size `(w, h)`).
`drawTransform` is the affine map that `CoastlineOverlay::draw` installs
as the `Transformer2D` (`Mat3x2::Scale(Vec2{sx, sy}).translated(translate)`,
i.e. `p ↦ p * scale + translate`): the drawn polygon vertices are
transformed exactly by it.  `visibleIndices` is the construction-time
culling loop (`for (i, country) in Indexed(countries)`) keeping the
indices whose bounding rectangle intersects the visible geo rectangle;
the bounding boxes computed by the external `computeBoundingRect` are
taken as the input list, and Siv3D's rectangle intersection test
(`Geometry2D::Intersect` on `RectF`: four strict comparisons of the
opposing edges) is embedded as `RectF.intersects`. -/

structure RectF where
  x : ℚ
  y : ℚ
  w : ℚ
  h : ℚ
deriving DecidableEq

/-- The affine geographic-to-screen map of `CoastlineOverlay::draw`
(Main.cpp lines 167-178): `pixelSize = destRect.size / (m_w, m_h)`,
`sx = (destRect.w - pixelSize.x) / (lonMax - lonMin)`,
`sy = (destRect.h - pixelSize.y) / (yMax - yMin)`,
`translate = (destRect.pos + halfPixel) - (lonMin * sx, yMin * sy)`,
applied as `p * scale + translate`. -/
def drawTransform (destRect : RectF) (lonMin lonMax yMin yMax : ℚ)
    (mw mh : ℕ) (p : ℚ × ℚ) : ℚ × ℚ :=
  let pixelSizeX := destRect.w / mw
  let pixelSizeY := destRect.h / mh
  let halfPixelX := pixelSizeX * (1/2)
  let halfPixelY := pixelSizeY * (1/2)
  let sx := (destRect.w - pixelSizeX) / (lonMax - lonMin)
  let sy := (destRect.h - pixelSizeY) / (yMax - yMin)
  let translateX := (destRect.x + halfPixelX) - lonMin * sx
  let translateY := (destRect.y + halfPixelY) - yMin * sy
  (p.1 * sx + translateX, p.2 * sy + translateY)

/-- Scale of the affine map, written from the spec sentence:
`scale.x = (destRect.width - pixelSize.x) / (lonMax - lonMin)`,
`scale.y = (destRect.height - pixelSize.y) / (yMax - yMin)` with
`pixelSize = destRect.size / (gridWidth, gridHeight)`. -/
def specScale (destRect : RectF) (lonMin lonMax yMin yMax : ℚ) (mw mh : ℕ) : ℚ × ℚ :=
  ((destRect.w - destRect.w / mw) / (lonMax - lonMin),
   (destRect.h - destRect.h / mh) / (yMax - yMin))

/-- Translation of the affine map, written from the spec sentence:
`translate = destRect.origin + pixelSize/2 - (lonMin * scale.x, yMin * scale.y)`. -/
def specTranslate (destRect : RectF) (lonMin lonMax yMin yMax : ℚ) (mw mh : ℕ) : ℚ × ℚ :=
  (destRect.x + (destRect.w / mw) / 2
      - lonMin * (specScale destRect lonMin lonMax yMin yMax mw mh).1,
   destRect.y + (destRect.h / mh) / 2
      - yMin * (specScale destRect lonMin lonMax yMin yMax mw mh).2)

/-- Claim C2: `CoastlineOverlay::draw` applies exactly the affine map
`screenPoint = geoPoint * scale + translate` with the spec's `scale` and
`translate`; and in the worked example (2×2 grid, destination rectangle
`(0,0)-(100,100)`, geoRect `[0,1]×[0,1]`, where the grid axes place the
centers of cells `(0,0)` and `(1,1)` at geographic `(0,0)` and `(1,1)`),
the two cell centers map to the pixel centers `(25,25)` and `(75,75)`. -/
theorem draw_affine_map_spec (destRect : RectF) (lonMin lonMax yMin yMax : ℚ)
    (mw mh : ℕ) (p : ℚ × ℚ) (hw : 1 ≤ mw) (hh : 1 ≤ mh)
    (hlon : lonMin < lonMax) (hy : yMin < yMax) :
    drawTransform destRect lonMin lonMax yMin yMax mw mh p
      = (p.1 * (specScale destRect lonMin lonMax yMin yMax mw mh).1
           + (specTranslate destRect lonMin lonMax yMin yMax mw mh).1,
         p.2 * (specScale destRect lonMin lonMax yMin yMax mw mh).2
           + (specTranslate destRect lonMin lonMax yMin yMax mw mh).2)
    ∧ drawTransform ⟨0, 0, 100, 100⟩ 0 1 0 1 2 2 (0, 0) = (25, 25)
    ∧ drawTransform ⟨0, 0, 100, 100⟩ 0 1 0 1 2 2 (1, 1) = (75, 75) := by
  refine ⟨?_, ?_, ?_⟩
  · simp only [drawTransform, specScale, specTranslate, Prod.mk.injEq]
    constructor <;> ring
  · norm_num [drawTransform]
  · norm_num [drawTransform]

/-- Witness for C2 at the worked example's inputs. -/
theorem draw_affine_map_spec_witness :
    (drawTransform ⟨0, 0, 100, 100⟩ 0 1 0 1 2 2 (0, 0)
      = ((0:ℚ) * (specScale ⟨0, 0, 100, 100⟩ 0 1 0 1 2 2).1
           + (specTranslate ⟨0, 0, 100, 100⟩ 0 1 0 1 2 2).1,
         (0:ℚ) * (specScale ⟨0, 0, 100, 100⟩ 0 1 0 1 2 2).2
           + (specTranslate ⟨0, 0, 100, 100⟩ 0 1 0 1 2 2).2))
    ∧ drawTransform ⟨0, 0, 100, 100⟩ 0 1 0 1 2 2 (0, 0) = (25, 25)
    ∧ drawTransform ⟨0, 0, 100, 100⟩ 0 1 0 1 2 2 (1, 1) = (75, 75) :=
  draw_affine_map_spec ⟨0, 0, 100, 100⟩ 0 1 0 1 2 2 (0, 0)
    (by norm_num) (by norm_num) (by norm_num) (by norm_num)

/-- Siv3D's rectangle intersection test (`Geometry2D::Intersect` on two
`RectF`s): the four strict edge comparisons. -/
def RectF.intersects (a b : RectF) : Bool :=
  decide (a.x < b.x + b.w) && decide (b.x < a.x + a.w)
    && decide (a.y < b.y + b.h) && decide (b.y < a.y + a.h)

/-- `a` lies entirely outside `b`: separated (or exactly touching) along
some axis. -/
def RectF.separatedFrom (a b : RectF) : Prop :=
  a.x + a.w ≤ b.x ∨ b.x + b.w ≤ a.x ∨ a.y + a.h ≤ b.y ∨ b.y + b.h ≤ a.y

/-- `(px, py)` is interior to both `a` and `b`: the rectangles overlap
with positive extent. -/
def RectF.overlapsAt (a b : RectF) (px py : ℚ) : Prop :=
  (a.x < px ∧ px < a.x + a.w) ∧ (b.x < px ∧ px < b.x + b.w)
    ∧ (a.y < py ∧ py < a.y + a.h) ∧ (b.y < py ∧ py < b.y + b.h)

/-- The construction-time culling loop of `CoastlineOverlay` (Main.cpp
lines 152-160): iterate over the indexed bounding boxes in order and
keep the indices whose box intersects the visible geo rectangle — i.e.
the sublist of `0, ..., n-1` passing the intersection test. -/
def visibleIndices (countries : List RectF) (geoViewRect : RectF) : List ℕ :=
  (List.range countries.length).filter
    (fun i => (countries.getD i ⟨0, 0, 0, 0⟩).intersects geoViewRect)

/-- Claim C5: an index is in the visibility set computed at
`CoastlineOverlay` construction iff its feature's bounding box intersects
the visible geo rectangle; a box entirely outside the rectangle never
appears, and a box properly overlapping it always appears. -/
theorem visibleIndices_iff_intersects (countries : List RectF) (r : RectF) (i : ℕ)
    (hi : i < countries.length) :
    (i ∈ visibleIndices countries r
      ↔ (countries.getD i ⟨0, 0, 0, 0⟩).intersects r = true)
    ∧ ((countries.getD i ⟨0, 0, 0, 0⟩).separatedFrom r →
        i ∉ visibleIndices countries r)
    ∧ (∀ px py : ℚ, (countries.getD i ⟨0, 0, 0, 0⟩).overlapsAt r px py →
        i ∈ visibleIndices countries r) := by
  have hiff : i ∈ visibleIndices countries r
      ↔ (countries.getD i ⟨0, 0, 0, 0⟩).intersects r = true := by
    simp [visibleIndices, List.mem_filter, List.mem_range, hi]
  refine ⟨hiff, ?_, ?_⟩
  · intro hsep hmem
    have h := hiff.1 hmem
    simp only [RectF.intersects, Bool.and_eq_true, decide_eq_true_eq] at h
    obtain ⟨⟨⟨h1, h2⟩, h3⟩, h4⟩ := h
    rcases hsep with h5 | h5 | h5 | h5 <;> linarith
  · intro px py hov
    refine hiff.2 ?_
    obtain ⟨⟨ha1, ha2⟩, ⟨hb1, hb2⟩, ⟨ha3, ha4⟩, hb3, hb4⟩ := hov
    simp only [RectF.intersects, Bool.and_eq_true, decide_eq_true_eq]
    refine ⟨⟨⟨by linarith, by linarith⟩, by linarith⟩, by linarith⟩

/-- Witness for C5 with a single feature box `(0,0)-(2,2)` against the
visible rectangle `(1,1)-(3,3)`: it appears, as the interior point
`(3/2, 3/2)` overlaps both. -/
theorem visibleIndices_iff_intersects_witness :
    (0 ∈ visibleIndices [⟨0, 0, 2, 2⟩] ⟨1, 1, 2, 2⟩
      ↔ (List.getD ([⟨0, 0, 2, 2⟩] : List RectF) 0 ⟨0, 0, 0, 0⟩).intersects ⟨1, 1, 2, 2⟩ = true)
    ∧ ((List.getD ([⟨0, 0, 2, 2⟩] : List RectF) 0 ⟨0, 0, 0, 0⟩).separatedFrom ⟨1, 1, 2, 2⟩ →
        0 ∉ visibleIndices [⟨0, 0, 2, 2⟩] ⟨1, 1, 2, 2⟩)
    ∧ (∀ px py : ℚ,
        (List.getD ([⟨0, 0, 2, 2⟩] : List RectF) 0 ⟨0, 0, 0, 0⟩).overlapsAt ⟨1, 1, 2, 2⟩ px py →
        0 ∈ visibleIndices [⟨0, 0, 2, 2⟩] ⟨1, 1, 2, 2⟩) :=
  visibleIndices_iff_intersects [⟨0, 0, 2, 2⟩] ⟨1, 1, 2, 2⟩ 0 (by norm_num)

end VisWeather
